import Mathlib

/-!
Verification development for the ControlNet job API.

The repository exposes a job-oriented image-generation API:
`app/services/job_manager.py` (job coordinator), `app/services/controlnet.py`
(inference gateway), `app/api/endpoints/generation.py` and `app/api/deps.py`
(HTTP surface), `app/models/generation.py` (schemas), `app/core/config.py`
(settings).  This file gives a shallow embedding of those parts and proves
properties of the embedding.  The external ML model (torch, the DDIM sampler,
the Canny detector, PIL encoding, ...) is treated as an opaque collaborator:
it is modelled by a record of pure functions (`ModelEnv`) threaded through an
explicit random-number-generator state, mirroring the data flow of the Python
code.  The filesystem is modelled as an explicit value (`FS`); Python
exceptions are modelled with `Except`.
-/

namespace ControlNetAPI

/-- `JobStatus` from `app/models/generation.py`: a string enum with the four
lifecycle states. -/
inductive JobStatus where
  | pending
  | processing
  | completed
  | failed
deriving DecidableEq, Repr

/-- The string value of each `JobStatus` member (it is a `str` enum). -/
def JobStatus.toStr : JobStatus → String
  | .pending => "pending"
  | .processing => "processing"
  | .completed => "completed"
  | .failed => "failed"

/-- `GenerationParams` from `app/models/generation.py`.  Python `int` fields
that are validated non-negative are `Nat`; `seed` may be `-1` so it is `Int`;
`float` fields are carried as `ℚ` (the coordinator and gateway only pass them
through, no arithmetic is performed on them). -/
structure GenerationParams where
  prompt : String
  a_prompt : String := "good quality"
  n_prompt : String := "lowres, bad anatomy, worst quality, low quality"
  num_samples : Nat := 1
  image_resolution : Nat := 512
  ddim_steps : Nat := 20
  strength : ℚ := 1
  scale : ℚ := 9
  seed : Int := -1
  eta : ℚ := 0
  low_threshold : Nat := 50
  high_threshold : Nat := 100
deriving DecidableEq, Repr

/-- The pydantic `Field` bounds of `GenerationParams` (`ge=`/`le=` in
`app/models/generation.py`), checked at the API boundary. -/
def GenerationParams.valid (p : GenerationParams) : Prop :=
  1 ≤ p.num_samples ∧ p.num_samples ≤ 4 ∧
  256 ≤ p.image_resolution ∧ p.image_resolution ≤ 1024 ∧
  1 ≤ p.ddim_steps ∧ p.ddim_steps ≤ 100 ∧
  0 ≤ p.strength ∧ p.strength ≤ 1 ∧
  1 ≤ p.scale ∧ p.scale ≤ 20 ∧
  p.low_threshold ≤ 255 ∧ p.high_threshold ≤ 255

instance (p : GenerationParams) : Decidable p.valid := by
  unfold GenerationParams.valid; infer_instance

/-! ## JSON values

`json.dump` output is modelled at the level of JSON values rather than byte
strings; serialisation of a JSON value to bytes is injective, so round-trip
statements are stated on values. -/

/-- A JSON value.  Python ints become `int`, Python floats `rat`. -/
inductive Json where
  | str (s : String)
  | int (i : Int)
  | rat (q : ℚ)
  | arr (elems : List Json)
  | obj (fields : List (String × Json))

/-- First field of a JSON object with the given key. -/
def findField : List (String × Json) → String → Option Json
  | [], _ => none
  | (k', v) :: rest, k => if k = k' then some v else findField rest k

/-- Field lookup on a JSON value (non-objects have no fields). -/
def Json.getField : Json → String → Option Json
  | .obj fields, k => findField fields k
  | _, _ => none

def Json.asStr : Json → Option String
  | .str s => some s
  | _ => none

def Json.asInt : Json → Option Int
  | .int i => some i
  | _ => none

def Json.asRat : Json → Option ℚ
  | .rat q => some q
  | _ => none

/-! ## Filesystem model

Paths are lists of components relative to the process working directory, e.g.
`["jobs", job_id, "input.png"]`.  A filesystem holds a list of files keyed by
path (first entry wins, and writes remove any older entry with the same path,
so paths are effectively unique keys) plus a list of directories. -/

/-- A filesystem path, as a list of components. -/
abbrev FPath := List String

/-- File contents: raw bytes (images, uploads) or a JSON document (what
`json.dump` writes, kept structured). -/
inductive FileData where
  | raw (bytes : List Nat)
  | json (j : Json)

/-- Lookup of a path in a file list. -/
def findFile : List (FPath × FileData) → FPath → Option FileData
  | [], _ => none
  | (q, d) :: rest, p => if p = q then some d else findFile rest p

/-- The filesystem state: files and directories. -/
structure FS where
  files : List (FPath × FileData)
  dirs : List FPath

/-- Contents of the file at `p`, if it exists. -/
def FS.readFile (fs : FS) (p : FPath) : Option FileData :=
  findFile fs.files p

/-- Whether a regular file exists at `p`. -/
def FS.fileExists (fs : FS) (p : FPath) : Bool :=
  (fs.readFile p).isSome

/-- Membership of a path in a directory list. -/
def dirMem : List FPath → FPath → Bool
  | [], _ => false
  | q :: rest, p => if p = q then true else dirMem rest p

/-- `Path.exists()`: true if a file or a directory exists at `p`. -/
def FS.pathExists (fs : FS) (p : FPath) : Bool :=
  fs.fileExists p || dirMem fs.dirs p

/-- Write (create or overwrite) the file at `p`. -/
def FS.writeFile (fs : FS) (p : FPath) (d : FileData) : FS :=
  { fs with files := (p, d) :: fs.files.filter (fun e => !decide (e.1 = p)) }

/-- `mkdir(parents=True, exist_ok=True)` on a job directory. -/
def FS.mkdir (fs : FS) (p : FPath) : FS :=
  { fs with dirs := p :: fs.dirs }

/-- Whether the file `name` exists inside job `job_id`'s directory. -/
def FS.inJobDir (fs : FS) (job_id name : String) : Bool :=
  fs.fileExists ["jobs", job_id, name]

/-! ## Storage layout (`settings.JOBS_DIR = Path("jobs")`) -/

/-- The job directory `settings.JOBS_DIR / job_id`. -/
def jobDir (job_id : String) : FPath := ["jobs", job_id]

/-- The uploaded input image `job_dir / "input.png"`. -/
def inputPath (job_id : String) : FPath := ["jobs", job_id, "input.png"]

/-- The result file name `f"result_{idx}.png"`. -/
def resultName (idx : Nat) : String := "result_" ++ Nat.repr idx ++ ".png"

/-- The result file path `job_dir / f"result_{idx}.png"`. -/
def resultPath (job_id : String) (idx : Nat) : FPath :=
  ["jobs", job_id, resultName idx]

/-- The metadata path `job_dir / "metadata.json"`. -/
def metadataPath (job_id : String) : FPath := ["jobs", job_id, "metadata.json"]

/-! ## Inference gateway (`app/services/controlnet.py`)

The external model (torch, DDIM sampler, Canny detector, OpenCV decoding, PIL
encoding) is opaque: each of its operations is a field of `ModelEnv`, a pure
function of its inputs.  Randomness is made explicit: torch's global random
state is a value of type `RngState` threaded through the computation, and
`torch.manual_seed(s)` / `np.random.seed(s)` is modelled by replacing the
state with `seedState s`.  Failures (an image that cannot be decoded, a batch
index that is out of range) surface as `Option`/`Except`, standing for the
exceptions the Python code can raise. -/

/-- An opaque decoded image (byte buffer). -/
abbrev ImageData := List Nat

/-- The torch/numpy global random state, abstractly. -/
abbrev RngState := Nat

/-- An opaque text-conditioning embedding. -/
abbrev CondVec := List Nat

/-- The pair `{"c_concat": [control], "c_crossattn": [embedding]}` built in
`ControlNetService._generate`. -/
structure CondPair where
  c_concat : ImageData
  c_crossattn : CondVec
deriving DecidableEq

/-- Errors raised inside `ControlNetService.process_image`:
`loadError` for `ValueError("Failed to load input image")` (and unreadable
input files), `indexError` for a sampler batch shorter than `num_samples`. -/
inductive GenError where
  | loadError
  | indexError
deriving DecidableEq, Repr

/-- `torch.stack([control] * num_samples)`: `n` copies of the detected map
concatenated into one batch buffer. -/
def repConcat : Nat → ImageData → ImageData
  | 0, _ => []
  | n + 1, d => d ++ repConcat n d

/-- The opaque external collaborators of `ControlNetService`, as pure
functions.  `sample` consumes and returns the random state; every other
operation is deterministic and does not touch it (as in the source, where
only the DDIM sampler draws random numbers). -/
structure ModelEnv where
  /-- `cv2.imread` + `cv2.cvtColor`; `none` models `imread` returning `None`
  or an undecodable file. -/
  decodeInput : FileData → Option ImageData
  /-- `annotator.util.HWC3`. -/
  hwc3 : ImageData → ImageData
  /-- `annotator.util.resize_image(img, image_resolution)`. -/
  resizeToRes : ImageData → Nat → ImageData
  /-- `CannyDetector()(img, low_threshold, high_threshold)`. -/
  canny : ImageData → Nat → Nat → ImageData
  /-- `img.shape[:2]`, the `(H, W)` of an image. -/
  imgShape : ImageData → Nat × Nat
  /-- `model.get_learned_conditioning(prompts)`. -/
  condEmbed : List String → CondVec
  /-- The random state produced by `torch.manual_seed(s)` /
  `np.random.seed(s)`. -/
  seedState : Int → RngState
  /-- `ddim_sampler.sample(...)` followed by `model.decode_first_stage` and
  the numpy post-processing: given step count, sample count, latent shape,
  conditioning, eta, guidance scale, unconditional conditioning and the
  random state, it yields the decoded batch (indexed by sample number,
  `none` past the end) and the advanced random state. -/
  sample : Nat → Nat → Nat × Nat × Nat → CondPair → ℚ → ℚ → CondPair →
    RngState → (Nat → Option ImageData) × RngState
  /-- `PIL.Image.fromarray(result).save(...)`: the PNG bytes written. -/
  encodePng : ImageData → List Nat

/-- The comprehension `[f(i) for i in l]` over a partial indexing function:
`none` as soon as any index is missing (an `IndexError`). -/
def collectBatch (f : Nat → Option ImageData) : List Nat → Option (List ImageData)
  | [] => some []
  | i :: rest =>
    match f i, collectBatch f rest with
    | some x, some xs => some (x :: xs)
    | _, _ => none

instance {ε α : Type _} [DecidableEq ε] [DecidableEq α] :
    DecidableEq (Except ε α) := fun a b =>
  match a, b with
  | .error e, .error f =>
    if h : e = f then .isTrue (congrArg Except.error h)
    else .isFalse (fun c => h (Except.error.inj c))
  | .ok x, .ok y =>
    if h : x = y then .isTrue (congrArg Except.ok h)
    else .isFalse (fun c => h (Except.ok.inj c))
  | .error _, .ok _ => .isFalse (fun c => Except.noConfusion c)
  | .ok _, .error _ => .isFalse (fun c => Except.noConfusion c)

namespace ControlNetService

/-- `ControlNetService._generate`, line for line: resize, Canny, control
stacking, the conditional seeding of the global random state, conditioning,
sampling, decoding, and the comprehension
`[x_samples[i] for i in range(params.num_samples)]` (whose indexing failure
is the `indexError` case). -/
def generate (env : ModelEnv) (rng : RngState) (input_image : ImageData)
    (p : GenerationParams) : Except GenError (List ImageData) × RngState :=
  let img := env.resizeToRes (env.hwc3 input_image) p.image_resolution
  let hw := env.imgShape img
  let detected_map := env.hwc3 (env.canny img p.low_threshold p.high_threshold)
  let control := repConcat p.num_samples detected_map
  let rng1 := if p.seed ≠ -1 then env.seedState p.seed else rng
  let cond : CondPair :=
    ⟨control, env.condEmbed (List.replicate p.num_samples (p.prompt ++ ", " ++ p.a_prompt))⟩
  let un_cond : CondPair :=
    ⟨control, env.condEmbed (List.replicate p.num_samples p.n_prompt)⟩
  let shape := (4, hw.1 / 8, hw.2 / 8)
  let sr := env.sample p.ddim_steps p.num_samples shape cond p.eta p.scale un_cond rng1
  match collectBatch sr.1 (List.range p.num_samples) with
  | none => (.error .indexError, sr.2)
  | some xs => (.ok xs, sr.2)

/-- The result-saving loop of `ControlNetService.process_image`
(`for idx, result in enumerate(results): ...`): writes
`result_<idx>.png` for each image in order and collects the names. -/
def saveResults (env : ModelEnv) : FS → String → Nat → List ImageData →
    FS × List String
  | fs, _, _, [] => (fs, [])
  | fs, job_id, idx, r :: rest =>
    let fs1 := fs.writeFile (resultPath job_id idx) (.raw (env.encodePng r))
    let next := saveResults env fs1 job_id (idx + 1) rest
    (next.1, resultName idx :: next.2)

/-- `ControlNetService.process_image`: load `input.png` from the job
directory, run `_generate`, save each result image, return the result file
names.  The `try/except` in the source logs and re-raises, so errors simply
propagate. -/
def process_image (env : ModelEnv) (rng : RngState) (fs : FS)
    (job_id : String) (p : GenerationParams) :
    Except GenError (FS × List String) × RngState :=
  match fs.readFile (inputPath job_id) with
  | none => (.error .loadError, rng)
  | some fd =>
    match env.decodeInput fd with
    | none => (.error .loadError, rng)
    | some input_image =>
      match generate env rng input_image p with
      | (.error e, rng') => (.error e, rng')
      | (.ok results, rng') =>
        let saved := saveResults env fs job_id 0 results
        (.ok saved, rng')

end ControlNetService

/-! ## Job coordinator (`app/services/job_manager.py`)

`JobManager` holds an in-memory dict `_jobs : Dict[str, JobStatus]` and an
`asyncio.Lock`.  The dict is modelled as an association list where the most
recent assignment is consed to the front (so lookup finds the latest value,
like dict assignment).  `process_job` is modelled here as a sequential
function on an explicit state — faithful to one `run` invocation executing
its whole body under the lock; the interleaving of several invocations is
modelled separately by the lock machine below. -/

/-- The in-memory job status dict. -/
abbrev JobMap := List (String × JobStatus)

/-- Lookup in the status dict (first, i.e. most recent, entry wins). -/
def statusLookup : JobMap → String → Option JobStatus
  | [], _ => none
  | (k, s) :: rest, job_id => if job_id = k then some s else statusLookup rest job_id

/-- Dict assignment `self._jobs[job_id] = status`. -/
def setStatus (jobs : JobMap) (job_id : String) (s : JobStatus) : JobMap :=
  (job_id, s) :: jobs

namespace JobManager

/-- `JobManager.get_job_status`: `self._jobs.get(job_id, JobStatus.PENDING)`. -/
def get_job_status (jobs : JobMap) (job_id : String) : JobStatus :=
  (statusLookup jobs job_id).getD .pending

end JobManager

/-- `params.model_dump()` as a JSON value: the twelve fields of
`GenerationParams` in declaration order, ints as JSON ints, floats as JSON
numbers, strings as JSON strings. -/
def dumpParams (p : GenerationParams) : Json :=
  .obj [
    ("prompt", .str p.prompt),
    ("a_prompt", .str p.a_prompt),
    ("n_prompt", .str p.n_prompt),
    ("num_samples", .int p.num_samples),
    ("image_resolution", .int p.image_resolution),
    ("ddim_steps", .int p.ddim_steps),
    ("strength", .rat p.strength),
    ("scale", .rat p.scale),
    ("seed", .int p.seed),
    ("eta", .rat p.eta),
    ("low_threshold", .int p.low_threshold),
    ("high_threshold", .int p.high_threshold)]

/-- A string field of a JSON object. -/
def jStr (j : Json) (k : String) : Option String := (j.getField k).bind Json.asStr

/-- An int field of a JSON object. -/
def jInt (j : Json) (k : String) : Option Int := (j.getField k).bind Json.asInt

/-- A numeric (float) field of a JSON object. -/
def jRat (j : Json) (k : String) : Option ℚ := (j.getField k).bind Json.asRat

/-- A decoder for the `parameters` object of a metadata file: reads each
field back.  (The repository never reads the metadata back; this decoder
witnesses that the dumped parameters determine the original value.) -/
def decodeParams (j : Json) : Option GenerationParams :=
  (jStr j "prompt").bind fun f1 =>
  (jStr j "a_prompt").bind fun f2 =>
  (jStr j "n_prompt").bind fun f3 =>
  (jInt j "num_samples").bind fun f4 =>
  (jInt j "image_resolution").bind fun f5 =>
  (jInt j "ddim_steps").bind fun f6 =>
  (jRat j "strength").bind fun f7 =>
  (jRat j "scale").bind fun f8 =>
  (jInt j "seed").bind fun f9 =>
  (jRat j "eta").bind fun f10 =>
  (jInt j "low_threshold").bind fun f11 =>
  (jInt j "high_threshold").bind fun f12 =>
  some (GenerationParams.mk f1 f2 f3 f4.toNat f5.toNat f6.toNat f7 f8 f9 f10
    f11.toNat f12.toNat)

/-- The JSON document written by `JobManager._save_job_metadata`:
`{"parameters": params.model_dump(), "results": result_paths,
"status": JobStatus.COMPLETED}` (the `str` enum serialises as
`"completed"`). -/
def metadataJson (p : GenerationParams) (result_paths : List String) : Json :=
  .obj [
    ("parameters", dumpParams p),
    ("results", .arr (result_paths.map .str)),
    ("status", .str "completed")]

/-- The mutable state one `process_job` invocation acts on: the in-memory
status dict, the filesystem, and the global random state. -/
structure JMState where
  jobs : JobMap
  fs : FS
  rng : RngState

namespace JobManager

/-- `JobManager._save_job_metadata`: writes `metadata.json` into the job
directory. -/
def save_job_metadata (fs : FS) (job_id : String) (p : GenerationParams)
    (result_paths : List String) : FS :=
  fs.writeFile (metadataPath job_id) (.json (metadataJson p result_paths))

/-- `JobManager.process_job`, the body executed under the lock: set status
Processing, call `process_image`; on success save the metadata, set status
Completed and return the result names; on an exception set status Failed and
re-raise (the `Except.error` result).  Note there is no guard on the job's
current status — the body runs whatever state the job is in. -/
def process_job (env : ModelEnv) (st : JMState) (job_id : String)
    (p : GenerationParams) : Except GenError (List String) × JMState :=
  let jobs1 := setStatus st.jobs job_id .processing
  match ControlNetService.process_image env st.rng st.fs job_id p with
  | (.error e, rng') =>
    (.error e, { jobs := setStatus jobs1 job_id .failed, fs := st.fs, rng := rng' })
  | (.ok saved, rng') =>
    let fs2 := save_job_metadata saved.1 job_id p saved.2
    (.ok saved.2, { jobs := setStatus jobs1 job_id .completed, fs := fs2, rng := rng' })

end JobManager

/-! ## API layer (`app/api/deps.py`, `app/api/endpoints/generation.py`)

Each endpoint that takes a `job_id` resolves the `verify_job_id` dependency
first: it 404s when `settings.JOBS_DIR / job_id` does not exist on disk.
Inside `get_result_image`, the `raise HTTPException(404, "Image not found")`
sits in a `try` block whose `except Exception` handler re-raises it as a 500
whose detail is `str(e)` — starlette's `HTTPException.__str__` renders as
`"404: Image not found"`.  (Unlike `upload_image`, this handler has no
`except HTTPException: raise` clause.)  The model keeps that behaviour. -/

/-- The error responses the modelled endpoints can produce. -/
inductive ApiError where
  | notFound (detail : String)
  | serverError (detail : String)
deriving DecidableEq, Repr

/-- The body of a status-poll response (`GenerationResponse`). -/
structure StatusResponse where
  job_id : String
  status : JobStatus
  images : Option (List String)
deriving DecidableEq, Repr

namespace Api

/-- `verify_job_id` (`app/api/deps.py`): the job directory's existence on
disk is the only check. -/
def verify_job_id (fs : FS) (job_id : String) : Bool :=
  fs.pathExists (jobDir job_id)

/-- `generate_images` (`POST /{job_id}/generate/`): after the dependency
check it enqueues `job_manager.process_job` as a background task (nothing in
the handler body raises) and replies with status Processing.  The enqueued
work itself is modelled by `JobManager.process_job`/`exec`. -/
def generate_images (fs : FS) (job_id : String) (_p : GenerationParams) :
    Except ApiError JobStatus :=
  if verify_job_id fs job_id then .ok .processing
  else .error (.notFound "Job not found")

/-- `job_dir.glob("result_*.png")`: a name matches exactly when it starts
with `result_` and ends with `.png` (no string shorter than 11 characters
satisfies both, so the two affix checks coincide with the glob). -/
def isResultFile (name : String) : Bool :=
  name.startsWith "result_" && name.endsWith ".png"

/-- The names of the `result_*.png` files in a job's directory (the glob in
the status endpoint; on-disk enumeration order is unspecified, the model uses
the file-list order). -/
def globResults (fs : FS) (job_id : String) : List String :=
  (fs.files.filterMap (fun e =>
    match e.1 with
    | [a, b, name] =>
      if a = "jobs" ∧ b = job_id ∧ isResultFile name then some name else none
    | _ => none))

/-- `get_job_status` endpoint (`GET /{job_id}/status/`): dependency check,
then the coordinator's status; when Completed it also lists the
`result_*.png` files. -/
def get_job_status (fs : FS) (jobs : JobMap) (job_id : String) :
    Except ApiError StatusResponse :=
  if verify_job_id fs job_id then
    let s := JobManager.get_job_status jobs job_id
    if s = .completed then .ok ⟨job_id, s, some (globResults fs job_id)⟩
    else .ok ⟨job_id, s, none⟩
  else .error (.notFound "Job not found")

/-- `get_result_image` (`GET /{job_id}/result/{image_name}`): dependency
check, then serve the file at `settings.JOBS_DIR / job_id / image_name` —
whatever file that is.  When the path is missing, the handler raises a 404
that its own blanket `except Exception` converts into a 500 with detail
`"404: Image not found"`. -/
def get_result_image (fs : FS) (job_id : String) (image_name : String) :
    Except ApiError FileData :=
  if verify_job_id fs job_id then
    match fs.readFile ["jobs", job_id, image_name] with
    | some d => .ok d
    | none => .error (.serverError "404: Image not found")
  else .error (.notFound "Job not found")

end Api

/-! ## System-level executions

A coarse trace semantics used for lifecycle statements: the operations that
touch coordinator or storage state, applied in sequence.  `upload` is the
storage effect of the upload endpoint (directory creation plus writing
`input.png`); `runJob` is one complete background execution of
`process_job`.  Under the coordinator's lock the bodies do not interleave
(see the lock machine below), so a sequential composition is faithful. -/

/-- One system-level operation. -/
inductive SysOp where
  | upload (job_id : String) (data : List Nat)
  | runJob (job_id : String) (p : GenerationParams)

/-- Apply one operation to the state. -/
def execOp (env : ModelEnv) (st : JMState) : SysOp → JMState
  | .upload job_id d =>
    { st with fs := (st.fs.mkdir (jobDir job_id)).writeFile (inputPath job_id) (.raw d) }
  | .runJob job_id p => (JobManager.process_job env st job_id p).2

/-- Apply a list of operations in order. -/
def exec (env : ModelEnv) : JMState → List SysOp → JMState
  | st, [] => st
  | st, op :: rest => exec env (execOp env st op) rest

/-! ## Upload resizing (`upload_image`, `app/core/config.py`)

The handler computes, in Python floats,
`ratio = MAX_IMAGE_SIZE / max(image.size)` and
`new_size = tuple(int(dim * ratio) for dim in image.size)` whenever
`max(image.size) > MAX_IMAGE_SIZE`.  Python floats are IEEE-754 binary64
values; `x / y` and `x * y` are correctly rounded (round to nearest, ties to
even) and `int()` truncates toward zero.  `roundB64` below implements that
rounding exactly on rationals (for the normal range, which covers every value
arising from image dimensions); `pyResize` is the resize computation with
binary64 arithmetic, `exactResize` the same formula in exact arithmetic. -/

/-- Round-to-nearest, ties-to-even of the non-negative rational `n / d`
(`d > 0`), on naturals. -/
def rneDiv (n d : Nat) : Nat :=
  let q := n / d
  let r := n % d
  if 2 * r < d then q
  else if d < 2 * r then q + 1
  else if q % 2 = 0 then q else q + 1

/-- Scale the positive fraction `n / d` by powers of two until it lies in
the binade `[2^52, 2^53)`, tracking the exponent.  The fuel bound 1300
exceeds the binary64 exponent range, so it never runs out for values in the
normal range of doubles (which covers every value arising from image
dimensions). -/
def normFrac : Nat → Nat → Nat → Int → Nat × Nat × Int
  | 0, n, d, e => (n, d, e)
  | fuel + 1, n, d, e =>
    if n < 2 ^ 52 * d then normFrac fuel (n * 2) d (e - 1)
    else if 2 ^ 53 * d ≤ n then normFrac fuel n (d * 2) (e + 1)
    else (n, d, e)

/-- A non-negative dyadic rational `m * 2^e`: the exact value of a binary64
floating-point number. -/
structure Dyadic where
  m : Nat
  e : Int
deriving DecidableEq, Repr

/-- The IEEE-754 binary64 value nearest to the non-negative rational
`n / d` (round to nearest, ties to even), for values in the normal range:
normalise the fraction into `[2^52, 2^53)`, round the significand to an
integer, keep the exponent. -/
def roundPosRat (n d : Nat) : Dyadic :=
  if n = 0 then ⟨0, 0⟩
  else
    let nde := normFrac 1300 n d 0
    ⟨rneDiv nde.1 nde.2.1, nde.2.2⟩

/-- Binary64 multiplication of an exactly-representable natural `w` (image
dimensions are far below `2^53`) with a binary64 value: round the exact
product `(w * m) * 2^e` back to 53 significant bits. -/
def b64MulNat (w : Nat) (x : Dyadic) : Dyadic :=
  let r := roundPosRat (w * x.m) 1
  ⟨r.m, r.e + x.e⟩

/-- `int()` truncation of a non-negative dyadic value (truncation toward
zero is the floor for non-negative values). -/
def dyadicTrunc (x : Dyadic) : Nat :=
  if 0 ≤ x.e then x.m * 2 ^ x.e.toNat else x.m / 2 ^ (-x.e).toNat

/-- The new size computed by `upload_image` for an image of width `w` and
height `h` (`image.size` is `(width, height)`), with Python's binary64 float
arithmetic: unchanged when `max w h ≤ maxSize`; otherwise
`ratio = maxSize / max(w, h)` is the correctly rounded binary64 quotient and
each new dimension is `int(dim * ratio)` with a correctly rounded binary64
product. -/
def pyResize (w h maxSize : Nat) : Nat × Nat :=
  let longSide := Nat.max w h
  if maxSize < longSide then
    let r := roundPosRat maxSize longSide
    (dyadicTrunc (b64MulNat w r), dyadicTrunc (b64MulNat h r))
  else (w, h)

/-- The same formula in exact arithmetic (each dimension multiplied by
`maxSize / max w h`, truncated): `⌊dim * maxSize / longSide⌋` is the natural
division `dim * maxSize / longSide`. -/
def exactResize (w h maxSize : Nat) : Nat × Nat :=
  let longSide := Nat.max w h
  if maxSize < longSide then
    (w * maxSize / longSide, h * maxSize / longSide)
  else (w, h)

/-! ## The serialisation lock (`async with self._lock` in `process_job`)

The API layer runs on a single-threaded cooperative dispatcher; several
`process_job` background tasks can be pending at once, and the dispatcher may
interleave them at `await` points.  The interleaving is modelled as a small
step machine: each task (one `run` invocation; distinct invocations have
distinct task ids, in particular invocations for distinct job ids do) moves
through the control points of the `process_job` body, and the
`asyncio.Lock` is the `lock` field holding the current owner.  A task can
pass the `acquire` point only when no task holds the lock — exactly
`asyncio.Lock`'s guarantee. -/

/-- The control points of one `process_job` invocation:
`notStarted` — before `async with self._lock`;
`locked` — lock acquired, before `self._jobs[job_id] = PROCESSING`;
`statusSet` — status set, before `await self.controlnet.process_image(...)`;
`inGateway` — the gateway call `process_image` is in progress;
`gwDone` — the gateway call returned or raised (metadata write and the
terminal status assignment happen here, still under the lock);
`finished` — the `async with` block exited and the lock was released. -/
inductive TaskPhase where
  | notStarted
  | locked
  | statusSet
  | inGateway
  | gwDone
  | finished
deriving DecidableEq, Repr

/-- The interleaved state: who holds the lock (if anyone), and each task's
control point.  Tasks are indexed by `Nat`. -/
structure LockState where
  lock : Option Nat
  phase : Nat → TaskPhase

/-- Pointwise update of a task's phase. -/
def setPhase (f : Nat → TaskPhase) (t : Nat) (ph : TaskPhase) : Nat → TaskPhase :=
  fun u => if u = t then ph else f u

/-- One dispatcher step.  Only `acquire` is guarded (a task suspends at the
lock until it is free); every other step just advances the body of the task
being scheduled, and `release` frees the lock at the end of the
`async with` block. -/
inductive LockStep : LockState → LockState → Prop where
  | acquire (s : LockState) (t : Nat) :
      s.phase t = .notStarted → s.lock = none →
      LockStep s ⟨some t, setPhase s.phase t .locked⟩
  | setProcessing (s : LockState) (t : Nat) :
      s.phase t = .locked →
      LockStep s ⟨s.lock, setPhase s.phase t .statusSet⟩
  | gatewayStart (s : LockState) (t : Nat) :
      s.phase t = .statusSet →
      LockStep s ⟨s.lock, setPhase s.phase t .inGateway⟩
  | gatewayEnd (s : LockState) (t : Nat) :
      s.phase t = .inGateway →
      LockStep s ⟨s.lock, setPhase s.phase t .gwDone⟩
  | release (s : LockState) (t : Nat) :
      s.phase t = .gwDone →
      LockStep s ⟨none, setPhase s.phase t .finished⟩

/-- The initial state: no owner, every task before its body. -/
def lockInit : LockState := ⟨none, fun _ => .notStarted⟩

/-- Reachability from the initial state. -/
def LockReachable (s : LockState) : Prop :=
  Relation.ReflTransGen LockStep lockInit s

/-- The control points lying inside the critical section (between
lock-acquire and lock-release). -/
def critPhase (ph : TaskPhase) : Prop :=
  ph = .locked ∨ ph = .statusSet ∨ ph = .inGateway ∨ ph = .gwDone

/-- A task is inside the critical section. -/
def inCritical (s : LockState) (t : Nat) : Prop :=
  critPhase (s.phase t)

/-! ## Concrete fixtures

Closed values used to instantiate the theorems on concrete inputs: a stub
instantiation of the opaque external model, a small parameter set, and small
filesystem states. -/

/-- A concrete stub instantiation of the opaque model collaborators.  The
sampler output depends on the incoming random state (as a real sampler's
does), which exhibits non-determinism when the seed is not forced. -/
def stubEnv : ModelEnv where
  decodeInput := fun fd => match fd with | .raw b => some b | .json _ => none
  hwc3 := id
  resizeToRes := fun i _ => i
  canny := fun i _ _ => i
  imgShape := fun _ => (512, 512)
  condEmbed := fun _ => []
  seedState := fun s => s.toNat
  sample := fun _ n _ _ _ _ _ rng =>
    (fun i => if i < n then some [rng, i] else none, rng + 1)
  encodePng := id

/-- Parameters with every default (`seed = -1`). -/
def pDefault : GenerationParams := { prompt := "p" }

/-- Valid parameters requesting two samples, with a fixed seed. -/
def pW : GenerationParams := { prompt := "p", num_samples := 2, seed := 42 }

/-- The empty filesystem. -/
def fsEmpty : FS := ⟨[], []⟩

/-- The filesystem right after an upload created job `job1`: its directory
and its `input.png`. -/
def fs0 : FS := ⟨[(inputPath "job1", .raw [7])], [jobDir "job1"]⟩

/-- `fs0` after a metadata file was also written for `job1` (but no result
files). -/
def fs1 : FS :=
  fs0.writeFile (metadataPath "job1") (.json (metadataJson pW ["result_0.png"]))

/-- The lock-machine state after `acquire` by task 0. -/
def lockS1 : LockState := ⟨some 0, setPhase lockInit.phase 0 .locked⟩

/-- ... after task 0 set status Processing. -/
def lockS2 : LockState := ⟨lockS1.lock, setPhase lockS1.phase 0 .statusSet⟩

/-- ... after task 0 entered its gateway call. -/
def lockS3 : LockState := ⟨lockS2.lock, setPhase lockS2.phase 0 .inGateway⟩

/-! # Theorems -/

/-! ## The lock invariant and C1 -/

/-- The lock invariant: every task inside the critical section owns the
lock.  Since the lock has at most one owner, at most one task is in its
critical section. -/
def lockInv (s : LockState) : Prop :=
  ∀ t, inCritical s t → s.lock = some t

theorem lockInv_init : lockInv lockInit := by
  intro t h
  rcases h with h | h | h | h <;> simp [lockInit] at h

theorem lockInv_step {s s' : LockState} (hs : lockInv s)
    (hstep : LockStep s s') : lockInv s' := by
  cases hstep with
  | acquire t hph hlock =>
    intro u hu
    by_cases hut : u = t
    · subst hut; rfl
    · have hcu : inCritical s u := by
        simpa [inCritical, setPhase, hut] using hu
      have := hs u hcu
      rw [hlock] at this
      cases this
  | setProcessing t hph =>
    intro u hu
    by_cases hut : u = t
    · subst hut; exact hs u (Or.inl hph)
    · exact hs u (by simpa [inCritical, setPhase, hut] using hu)
  | gatewayStart t hph =>
    intro u hu
    by_cases hut : u = t
    · subst hut; exact hs u (Or.inr (Or.inl hph))
    · exact hs u (by simpa [inCritical, setPhase, hut] using hu)
  | gatewayEnd t hph =>
    intro u hu
    by_cases hut : u = t
    · subst hut; exact hs u (Or.inr (Or.inr (Or.inl hph)))
    · exact hs u (by simpa [inCritical, setPhase, hut] using hu)
  | release t hph =>
    intro u hu
    by_cases hut : u = t
    · subst hut; simp [inCritical, critPhase, setPhase] at hu
    · have h1 := hs u (by simpa [inCritical, setPhase, hut] using hu)
      have h2 := hs t (Or.inr (Or.inr (Or.inr hph)))
      rw [h1] at h2
      exact absurd (Option.some.inj h2) hut

theorem reachable_lockInv {s : LockState} (h : LockReachable s) : lockInv s := by
  induction h with
  | refl => exact lockInv_init
  | tail _ hstep ih => exact lockInv_step ih hstep

/-- C1: two concurrent `run` invocations (tasks of the dispatcher) for
distinct job ids never have their gateway calls (`process_image`)
overlapping in time: in every reachable interleaving of `process_job`
bodies, at most one task is between gateway-start and gateway-end, because
the whole body from status-set through release runs under the single
`asyncio.Lock`. -/
theorem run_gateway_calls_mutually_exclusive
    (s : LockState) (hs : LockReachable s) (jobOf : Nat → String)
    (t u : Nat) (hj : jobOf t ≠ jobOf u) :
    ¬(s.phase t = .inGateway ∧ s.phase u = .inGateway) := by
  rintro ⟨ht, hu⟩
  have inv := reachable_lockInv hs
  have h1 := inv t (Or.inr (Or.inr (Or.inl ht)))
  have h2 := inv u (Or.inr (Or.inr (Or.inl hu)))
  rw [h1] at h2
  exact hj (congrArg jobOf (Option.some.inj h2))

theorem run_gateway_calls_mutually_exclusive_witness :
    ¬(lockS3.phase 0 = .inGateway ∧ lockS3.phase 1 = .inGateway) :=
  run_gateway_calls_mutually_exclusive lockS3
    (Relation.ReflTransGen.head (LockStep.acquire lockInit 0 rfl rfl)
      (Relation.ReflTransGen.head (LockStep.setProcessing lockS1 0 rfl)
        (Relation.ReflTransGen.head (LockStep.gatewayStart lockS2 0 rfl)
          Relation.ReflTransGen.refl)))
    Nat.repr 0 1 (by decide)

/-! ## Status-map lemmas -/

theorem statusLookup_set_self (jobs : JobMap) (j : String) (s : JobStatus) :
    statusLookup (setStatus jobs j s) j = some s := by
  simp [setStatus, statusLookup]

theorem statusLookup_set_ne (jobs : JobMap) (j j' : String) (s : JobStatus)
    (h : j' ≠ j) :
    statusLookup (setStatus jobs j s) j' = statusLookup jobs j' := by
  simp [setStatus, statusLookup, h]

/-! ## C4: terminal states are not guarded -/

/-- C4 (amended): any `process_job` invocation re-executes the body
regardless of the job's current status — there is no terminal-state guard —
and always drives the status to Completed on success or Failed on an
exception.  Within one invocation the transitions are
`... -> Processing -> Completed | Failed`; but a fresh invocation on a job
already in a terminal state runs again and overwrites that state. -/
theorem process_job_unconditionally_reprocesses
    (env : ModelEnv) (st : JMState) (j : String) (p : GenerationParams) :
    JobManager.get_job_status (JobManager.process_job env st j p).2.jobs j =
      (match (JobManager.process_job env st j p).1 with
       | .ok _ => JobStatus.completed
       | .error _ => JobStatus.failed) := by
  unfold JobManager.process_job
  rcases hpi : ControlNetService.process_image env st.rng st.fs j p with ⟨r, rng'⟩
  rcases r with e | sv <;>
    simp [JobManager.get_job_status, statusLookup_set_self]

/-- C4 counterexample: a job whose status is Completed is re-processed by a
second `run` invocation — here one that fails, so the status moves
Completed → Processing → Failed, a transition out of a terminal state. -/
theorem completed_job_reprocessed_counterexample :
    JobManager.get_job_status [("job1", JobStatus.completed)] "job1" =
      .completed ∧
    JobManager.get_job_status
      (JobManager.process_job stubEnv
        ⟨[("job1", JobStatus.completed)], fsEmpty, 0⟩ "job1" pDefault).2.jobs
      "job1" = .failed :=
  ⟨rfl, rfl⟩

/-! ## C3: gateway failure -/

/-- C3: if the gateway call (`process_image`) raises during `run`, then
`process_job` sets the job's status to Failed, leaves the filesystem — in
particular the job's metadata file — untouched, and re-raises the same
exception to its caller. -/
theorem gateway_failure_sets_failed
    (env : ModelEnv) (st : JMState) (j : String) (p : GenerationParams)
    (e : GenError)
    (herr : (ControlNetService.process_image env st.rng st.fs j p).1 = .error e) :
    (JobManager.process_job env st j p).1 = .error e ∧
    JobManager.get_job_status (JobManager.process_job env st j p).2.jobs j =
      .failed ∧
    (JobManager.process_job env st j p).2.fs = st.fs := by
  rcases hpi : ControlNetService.process_image env st.rng st.fs j p with ⟨r, rng'⟩
  rw [hpi] at herr
  simp only at herr
  subst herr
  simp [JobManager.process_job, hpi, JobManager.get_job_status,
    statusLookup_set_self]

theorem gateway_failure_sets_failed_witness :
    (JobManager.process_job stubEnv ⟨[], fsEmpty, 0⟩ "job1" pDefault).1 =
      .error .loadError ∧
    JobManager.get_job_status
      (JobManager.process_job stubEnv ⟨[], fsEmpty, 0⟩ "job1" pDefault).2.jobs
      "job1" = .failed ∧
    (JobManager.process_job stubEnv ⟨[], fsEmpty, 0⟩ "job1" pDefault).2.fs =
      fsEmpty :=
  gateway_failure_sets_failed stubEnv ⟨[], fsEmpty, 0⟩ "job1" pDefault
    .loadError rfl

/-! ## C5: never-run jobs are Pending -/

theorem process_job_preserves_other_status
    (env : ModelEnv) (st : JMState) (j' : String) (p : GenerationParams)
    (j : String) (h : j ≠ j') :
    statusLookup (JobManager.process_job env st j' p).2.jobs j =
      statusLookup st.jobs j := by
  unfold JobManager.process_job
  rcases hpi : ControlNetService.process_image env st.rng st.fs j' p with ⟨r, rng'⟩
  rcases r with e | sv <;> simp [statusLookup_set_ne _ _ _ _ h]

theorem execOp_preserves_other_status
    (env : ModelEnv) (st : JMState) (op : SysOp) (j : String)
    (hop : ∀ p, op ≠ SysOp.runJob j p) :
    statusLookup (execOp env st op).jobs j = statusLookup st.jobs j := by
  cases op with
  | upload j' d => rfl
  | runJob j' p =>
    have hj : j ≠ j' := by
      intro hjj
      subst hjj
      exact hop p rfl
    exact process_job_preserves_other_status env st j' p j hj

/-- C5: `status_of` is the pure lookup `self._jobs.get(job_id, PENDING)`,
so a job id on which `run` was never invoked — whatever uploads and runs of
other jobs happen — reports Pending. -/
theorem status_of_never_run_is_pending
    (env : ModelEnv) (st : JMState) (ops : List SysOp) (j : String)
    (h0 : statusLookup st.jobs j = none)
    (hops : ∀ p : GenerationParams, SysOp.runJob j p ∉ ops) :
    JobManager.get_job_status (exec env st ops).jobs j = .pending := by
  induction ops generalizing st with
  | nil =>
    simp [exec, JobManager.get_job_status, h0]
  | cons op rest ih =>
    have hop : ∀ p, op ≠ SysOp.runJob j p := by
      intro p hp
      exact hops p (hp ▸ List.mem_cons_self op rest)
    have h0' : statusLookup (execOp env st op).jobs j = none := by
      rw [execOp_preserves_other_status env st op j hop]
      exact h0
    exact ih (execOp env st op) h0'
      (fun p hp => hops p (List.mem_cons_of_mem op hp))

theorem status_of_never_run_is_pending_witness :
    JobManager.get_job_status
      (exec stubEnv ⟨[], fsEmpty, 0⟩
        [SysOp.upload "a" [7], SysOp.runJob "a" pDefault]).jobs "b" =
      .pending :=
  status_of_never_run_is_pending stubEnv ⟨[], fsEmpty, 0⟩
    [SysOp.upload "a" [7], SysOp.runJob "a" pDefault] "b" rfl
    (by intro p h; simp at h)

/-! ## Filesystem lemmas -/

theorem findFile_filter_ne (l : List (FPath × FileData)) (p q : FPath)
    (h : q ≠ p) :
    findFile (l.filter (fun e => !decide (e.1 = p))) q = findFile l q := by
  induction l with
  | nil => rfl
  | cons a rest ih =>
    rcases a with ⟨r, d⟩
    by_cases hrp : r = p
    · subst hrp
      simp [List.filter_cons, findFile, h, ih]
    · simp [List.filter_cons, findFile, hrp, ih]

theorem readFile_writeFile (fs : FS) (p q : FPath) (d : FileData) :
    (fs.writeFile p d).readFile q = if q = p then some d else fs.readFile q := by
  by_cases h : q = p
  · subst h
    simp [FS.writeFile, FS.readFile, findFile]
  · simp [FS.writeFile, FS.readFile, findFile, h, findFile_filter_ne _ _ _ h]

theorem fileExists_writeFile_of (fs : FS) (p q : FPath) (d : FileData)
    (h : fs.fileExists q = true) : (fs.writeFile p d).fileExists q = true := by
  simp only [FS.fileExists, readFile_writeFile]
  by_cases hqp : q = p <;> simp [hqp]
  · simpa [FS.fileExists] using h

theorem fileExists_writeFile_self (fs : FS) (p : FPath) (d : FileData) :
    (fs.writeFile p d).fileExists p = true := by
  simp [FS.fileExists, readFile_writeFile]

/-! ## Lemmas about the result-saving loop -/

theorem collectBatch_length (f : Nat → Option ImageData) (l : List Nat)
    (xs : List ImageData) (h : collectBatch f l = some xs) :
    xs.length = l.length := by
  induction l generalizing xs with
  | nil =>
    simp only [collectBatch, Option.some.injEq] at h
    subst h
    rfl
  | cons i rest ih =>
    unfold collectBatch at h
    cases hf : f i with
    | none => rw [hf] at h; simp at h
    | some x =>
      rw [hf] at h
      cases hc : collectBatch f rest with
      | none => rw [hc] at h; simp at h
      | some ys =>
        rw [hc] at h
        simp only [Option.some.injEq] at h
        subst h
        simp [ih ys hc]

theorem saveResults_names (env : ModelEnv) (rs : List ImageData) :
    ∀ (fs : FS) (j : String) (idx : Nat),
    (ControlNetService.saveResults env fs j idx rs).2 =
      (List.range rs.length).map (fun k => resultName (idx + k)) := by
  induction rs with
  | nil => intro fs j idx; rfl
  | cons r rest ih =>
    intro fs j idx
    simp only [ControlNetService.saveResults, ih, List.length_cons,
      List.range_succ_eq_map, List.map_cons, List.map_map]
    refine congrArg₂ List.cons (by simp) ?_
    apply List.map_congr_left
    intro k _
    simp only [Function.comp]
    congr 1
    omega

theorem saveResults_preserves_fileExists (env : ModelEnv) (rs : List ImageData) :
    ∀ (fs : FS) (j : String) (idx : Nat) (q : FPath),
    fs.fileExists q = true →
    (ControlNetService.saveResults env fs j idx rs).1.fileExists q = true := by
  induction rs with
  | nil => intro fs j idx q h; exact h
  | cons r rest ih =>
    intro fs j idx q h
    exact ih _ j (idx + 1) q (fileExists_writeFile_of _ _ _ _ h)

theorem saveResults_written_exist (env : ModelEnv) (rs : List ImageData) :
    ∀ (fs : FS) (j : String) (idx k : Nat), k < rs.length →
    (ControlNetService.saveResults env fs j idx rs).1.fileExists
      (resultPath j (idx + k)) = true := by
  induction rs with
  | nil => intro fs j idx k h; exact absurd h (Nat.not_lt_zero k)
  | cons r rest ih =>
    intro fs j idx k hk
    cases k with
    | zero =>
      exact saveResults_preserves_fileExists env rest _ j (idx + 1) _
        (by simpa using fileExists_writeFile_self fs (resultPath j idx) _)
    | succ k' =>
      have he : idx + (k' + 1) = (idx + 1) + k' := by omega
      rw [he]
      exact ih _ j (idx + 1) k' (by simpa using Nat.lt_of_succ_lt_succ hk)

theorem saveResults_readFile_cases (env : ModelEnv) (rs : List ImageData) :
    ∀ (fs : FS) (j : String) (idx : Nat) (q : FPath),
    (ControlNetService.saveResults env fs j idx rs).1.readFile q =
      fs.readFile q ∨
    ∃ k, k < rs.length ∧ q = resultPath j (idx + k) := by
  induction rs with
  | nil => intro fs j idx q; left; rfl
  | cons r rest ih =>
    intro fs j idx q
    rcases ih (fs.writeFile (resultPath j idx) (.raw (env.encodePng r))) j
        (idx + 1) q with h | ⟨k, hk, hq⟩
    · by_cases hqp : q = resultPath j idx
      · right
        exact ⟨0, by simp, by simpa using hqp⟩
      · left
        unfold ControlNetService.saveResults
        rw [h, readFile_writeFile]
        simp [hqp]
    · right
      refine ⟨k + 1, by simpa using Nat.succ_lt_succ hk, ?_⟩
      rw [hq]
      congr 1
      omega

/-! ## Name lemmas: `result_<i>.png` clashes with nothing else in the job
directory -/

theorem resultName_head (i : Nat) : (resultName i).data.head? = some 'r' := by
  simp only [resultName, String.data_append]
  rfl

theorem resultName_ne_input (i : Nat) : resultName i ≠ "input.png" := by
  intro h
  have hr := resultName_head i
  rw [h] at hr
  exact absurd hr (by decide)

theorem resultName_ne_metadata (i : Nat) : resultName i ≠ "metadata.json" := by
  intro h
  have hr := resultName_head i
  rw [h] at hr
  exact absurd hr (by decide)

/-! ## Structure of a successful gateway call -/

theorem batchResult_ok {f : Nat → Option ImageData} {l : List Nat}
    {r2 : RngState} {r : List ImageData} {rng' : RngState}
    (h : (match collectBatch f l with
          | none => (Except.error GenError.indexError, r2)
          | some xs => (Except.ok xs, r2)) = (Except.ok r, rng')) :
    collectBatch f l = some r := by
  cases hc : collectBatch f l with
  | none => rw [hc] at h; simp at h
  | some xs =>
    rw [hc] at h
    simp only [Prod.mk.injEq, Except.ok.injEq] at h
    rw [← h.1]

theorem generate_ok_length (env : ModelEnv) (rng : RngState) (img : ImageData)
    (p : GenerationParams) (r : List ImageData) (rng' : RngState)
    (h : ControlNetService.generate env rng img p = (.ok r, rng')) :
    r.length = p.num_samples := by
  unfold ControlNetService.generate at h
  dsimp only at h
  have hc := batchResult_ok h
  rw [collectBatch_length _ _ _ hc, List.length_range]

theorem process_image_ok_structure (env : ModelEnv) (rng : RngState) (fs : FS)
    (j : String) (p : GenerationParams) (sv : FS × List String)
    (rng' : RngState)
    (h : ControlNetService.process_image env rng fs j p = (.ok sv, rng')) :
    ∃ results : List ImageData,
      results.length = p.num_samples ∧
      sv = ControlNetService.saveResults env fs j 0 results ∧
      fs.fileExists (inputPath j) = true := by
  unfold ControlNetService.process_image at h
  split at h
  · simp at h
  · rename_i fd hrf
    split at h
    · simp at h
    · rename_i img hdi
      split at h
      · simp at h
      · rename_i results rng2 hg
        simp only [Prod.mk.injEq, Except.ok.injEq] at h
        refine ⟨results, ?_, h.1.symm, ?_⟩
        · exact generate_ok_length env rng img p results rng2 hg
        · simp [FS.fileExists, hrf]

/-! ## C2: successful runs -/

/-- C2: if `process_job` completes without an exception on a fresh job
directory (one containing only the uploaded `input.png`), with valid
parameters and `num_samples = N`, then the returned names are
`result_0.png` … `result_{N-1}.png` in ascending index order, those `N`
names are distinct, the job directory afterwards holds exactly `input.png`,
`metadata.json` and those `N` result files, the metadata record has been
written, and a subsequent `get_job_status` returns Completed. -/
theorem run_success_writes_results
    (env : ModelEnv) (st : JMState) (j : String) (p : GenerationParams)
    (names : List String)
    (hv : p.valid)
    (hfresh : ∀ name, st.fs.inJobDir j name = true → name = "input.png")
    (hok : (JobManager.process_job env st j p).1 = .ok names) :
    names = (List.range p.num_samples).map resultName ∧
    names.Nodup ∧
    (∀ name, (JobManager.process_job env st j p).2.fs.inJobDir j name = true ↔
      (name = "input.png" ∨ name = "metadata.json" ∨ name ∈ names)) ∧
    (JobManager.process_job env st j p).2.fs.readFile (metadataPath j) =
      some (.json (metadataJson p names)) ∧
    JobManager.get_job_status (JobManager.process_job env st j p).2.jobs j =
      .completed := by
  rcases hpi : ControlNetService.process_image env st.rng st.fs j p with ⟨r, rng'⟩
  rcases r with e | sv
  · exfalso
    simp [JobManager.process_job, hpi] at hok
  · obtain ⟨results, hlen, hsv, hinput⟩ :=
      process_image_ok_structure env st.rng st.fs j p sv rng' hpi
    have hnames : sv.2 = names := by
      simpa [JobManager.process_job, hpi] using hok
    have hform : sv.2 = (List.range p.num_samples).map resultName := by
      rw [hsv, saveResults_names env results st.fs j 0, hlen]
      simp
    have hfs : (JobManager.process_job env st j p).2.fs =
        (ControlNetService.saveResults env st.fs j 0 results).1.writeFile
          (metadataPath j) (.json (metadataJson p sv.2)) := by
      have h1 : sv.1 = (ControlNetService.saveResults env st.fs j 0 results).1 := by
        rw [hsv]
      simp [JobManager.process_job, hpi, JobManager.save_job_metadata, h1]
    have hmain : ∀ name,
        (JobManager.process_job env st j p).2.fs.inJobDir j name = true ↔
        (name = "input.png" ∨ name = "metadata.json" ∨ name ∈ names) := by
      intro name
      constructor
      · intro hex
        by_cases hm : name = "metadata.json"
        · exact Or.inr (Or.inl hm)
        · have hpne : (["jobs", j, name] : FPath) ≠ metadataPath j := by
            simp [metadataPath, hm]
          rw [hfs] at hex
          simp only [FS.inJobDir, FS.fileExists, readFile_writeFile,
            if_neg hpne] at hex
          rcases saveResults_readFile_cases env results st.fs j 0
              ["jobs", j, name] with hcase | ⟨k, hk, hq⟩
          · rw [hcase] at hex
            exact Or.inl (hfresh name hex)
          · right; right
            have hnm : name = resultName k := by
              simpa [resultPath] using hq
            rw [← hnames, hform, hnm]
            exact List.mem_map_of_mem resultName
              (List.mem_range.mpr (hlen ▸ hk))
      · intro hmem
        rcases hmem with h1 | h2 | h3
        · subst h1
          rw [hfs]
          exact fileExists_writeFile_of _ _ _ _
            (saveResults_preserves_fileExists env results st.fs j 0 _ hinput)
        · subst h2
          rw [hfs]
          exact fileExists_writeFile_self _ _ _
        · rw [← hnames, hform] at h3
          obtain ⟨k, hkmem, hkeq⟩ := List.mem_map.mp h3
          have hkn : k < p.num_samples := List.mem_range.mp hkmem
          subst hkeq
          rw [hfs]
          apply fileExists_writeFile_of
          have hw := saveResults_written_exist env results st.fs j 0 k
            (hlen.symm ▸ hkn)
          simpa [FS.inJobDir, resultPath] using hw
    refine ⟨by rw [← hnames]; exact hform, ?_, hmain, ?_, ?_⟩
    · rw [← hnames, hform]
      have hN1 : 1 ≤ p.num_samples := hv.1
      have hN4 : p.num_samples ≤ 4 := hv.2.1
      have : p.num_samples = 1 ∨ p.num_samples = 2 ∨ p.num_samples = 3 ∨
          p.num_samples = 4 := by omega
      rcases this with h | h | h | h <;> rw [h] <;> decide
    · rw [hfs, readFile_writeFile, if_pos rfl, hnames]
    · simp [JobManager.process_job, hpi, JobManager.get_job_status,
        statusLookup_set_self]

theorem run_success_writes_results_witness :
    JobManager.get_job_status
      (JobManager.process_job stubEnv ⟨[], fs0, 0⟩ "job1" pW).2.jobs "job1" =
      .completed :=
  (run_success_writes_results stubEnv ⟨[], fs0, 0⟩ "job1" pW
    ["result_0.png", "result_1.png"] (by decide)
    (by
      intro name h
      simpa [fs0, FS.inJobDir, FS.fileExists, FS.readFile, findFile,
        inputPath] using h)
    rfl).2.2.2.2

/-! ## C7: metadata round-trip -/

theorem decodeParams_dumpParams (p : GenerationParams) :
    decodeParams (dumpParams p) = some p := by
  simp [decodeParams, dumpParams, jStr, jInt, jRat, Json.getField, findField,
    Json.asStr, Json.asInt, Json.asRat]

/-- C7: the metadata file (written exactly when a run succeeds) is a JSON
object whose `parameters` member decodes back to exactly the
`GenerationParams` passed to `process_job`, whose `results` member is the
ordered list of the result file names actually written for the job (each of
which exists on disk afterwards), and whose `status` member is the terminal
status string `"completed"`. -/
theorem metadata_roundtrip
    (env : ModelEnv) (st : JMState) (j : String) (p : GenerationParams)
    (names : List String)
    (hok : (JobManager.process_job env st j p).1 = .ok names) :
    (JobManager.process_job env st j p).2.fs.readFile (metadataPath j) =
      some (.json (metadataJson p names)) ∧
    (metadataJson p names).getField "parameters" = some (dumpParams p) ∧
    decodeParams (dumpParams p) = some p ∧
    (metadataJson p names).getField "results" =
      some (.arr (names.map .str)) ∧
    (names.map Json.str).map Json.asStr = names.map some ∧
    (metadataJson p names).getField "status" = some (.str "completed") ∧
    names = (List.range p.num_samples).map resultName ∧
    (∀ i, i < p.num_samples →
      (JobManager.process_job env st j p).2.fs.fileExists (resultPath j i) =
        true) := by
  rcases hpi : ControlNetService.process_image env st.rng st.fs j p with ⟨r, rng'⟩
  rcases r with e | sv
  · exfalso
    simp [JobManager.process_job, hpi] at hok
  · obtain ⟨results, hlen, hsv, hinput⟩ :=
      process_image_ok_structure env st.rng st.fs j p sv rng' hpi
    have hnames : sv.2 = names := by
      simpa [JobManager.process_job, hpi] using hok
    have hform : sv.2 = (List.range p.num_samples).map resultName := by
      rw [hsv, saveResults_names env results st.fs j 0, hlen]
      simp
    have hfs : (JobManager.process_job env st j p).2.fs =
        (ControlNetService.saveResults env st.fs j 0 results).1.writeFile
          (metadataPath j) (.json (metadataJson p sv.2)) := by
      have h1 : sv.1 = (ControlNetService.saveResults env st.fs j 0 results).1 := by
        rw [hsv]
      simp [JobManager.process_job, hpi, JobManager.save_job_metadata, h1]
    refine ⟨?_, rfl, decodeParams_dumpParams p, rfl, ?_, rfl, ?_, ?_⟩
    · rw [hfs, readFile_writeFile, if_pos rfl, hnames]
    · simp [List.map_map, Function.comp, Json.asStr]
    · rw [← hnames]; exact hform
    · intro i hi
      rw [hfs]
      apply fileExists_writeFile_of
      have hw := saveResults_written_exist env results st.fs j 0 i
        (hlen.symm ▸ hi)
      simpa using hw

theorem metadata_roundtrip_witness :
    decodeParams (dumpParams pW) = some pW :=
  (metadata_roundtrip stubEnv ⟨[], fs0, 0⟩ "job1" pW
    ["result_0.png", "result_1.png"] rfl).2.2.1

/-! ## C6: unknown jobs are 404s, existing-but-unprocessed jobs are Pending -/

/-- C6: for a job id whose directory does not exist on disk, the
start-generation, status-poll and result-fetch endpoints all answer
404 "Job not found" (via the `verify_job_id` dependency), and directory
existence is the sole criterion: with the directory present, a job never
seen by the coordinator polls as Pending rather than as unknown. -/
theorem unknown_job_is_404
    (fs : FS) (jobs : JobMap) (j : String) (p : GenerationParams)
    (name : String)
    (hmiss : fs.pathExists (jobDir j) = false) :
    Api.generate_images fs j p = .error (.notFound "Job not found") ∧
    Api.get_job_status fs jobs j = .error (.notFound "Job not found") ∧
    Api.get_result_image fs j name = .error (.notFound "Job not found") ∧
    (∀ fs' : FS, fs'.pathExists (jobDir j) = true →
      statusLookup jobs j = none →
      Api.get_job_status fs' jobs j = .ok ⟨j, .pending, none⟩) := by
  refine ⟨?_, ?_, ?_, ?_⟩
  · simp [Api.generate_images, Api.verify_job_id, hmiss]
  · simp [Api.get_job_status, Api.verify_job_id, hmiss]
  · simp [Api.get_result_image, Api.verify_job_id, hmiss]
  · intro fs' hex hnone
    simp [Api.get_job_status, Api.verify_job_id, hex,
      JobManager.get_job_status, hnone]

theorem unknown_job_is_404_witness :
    Api.get_job_status fsEmpty [] "nojob" = .error (.notFound "Job not found") :=
  (unknown_job_is_404 fsEmpty [] "nojob" pDefault "x" rfl).2.1

/-! ## C9: determinism under a fixed seed -/

/-- C9: `_generate` is deterministic given a fixed seed: when
`seed ≠ -1` the global random state is overwritten by
`torch.manual_seed` / `np.random.seed` before sampling, so the result is
independent of the incoming random state; when `seed = -1` no determinism
is imposed — a sampler whose draws depend on the ambient random state can
produce different outputs on two runs. -/
theorem generate_seed_determinism :
    (∀ (env : ModelEnv) (input : ImageData) (p : GenerationParams)
        (r1 r2 : RngState), p.seed ≠ -1 →
      (ControlNetService.generate env r1 input p).1 =
        (ControlNetService.generate env r2 input p).1) ∧
    (∃ (env : ModelEnv) (input : ImageData) (p : GenerationParams)
        (r1 r2 : RngState), p.seed = -1 ∧
      (ControlNetService.generate env r1 input p).1 ≠
        (ControlNetService.generate env r2 input p).1) := by
  constructor
  · intro env input p r1 r2 hseed
    unfold ControlNetService.generate
    simp [hseed]
  · exact ⟨stubEnv, [], pDefault, 0, 1, rfl, by decide⟩

theorem generate_seed_determinism_witness :
    (ControlNetService.generate stubEnv 0 [] pW).1 =
      (ControlNetService.generate stubEnv 5 [] pW).1 :=
  generate_seed_determinism.1 stubEnv [] pW 0 5 (by decide)

/-! ## C8: upload resizing -/

/-- C8 counterexample: a 2215×1000 upload with `MAX_IMAGE_SIZE = 2048`
exceeds the limit, yet the stored longer side is 2047, not 2048: Python
evaluates `int(2215 * (2048 / 2215))` in binary64 floats, and the rounding
of `2048 / 2215` lands below the exact quotient, so the truncation loses a
pixel.  This refutes "the longer side equals MAX_IMAGE_SIZE exactly" as a
statement about every oversized upload. -/
theorem resize_longer_side_inexact_counterexample :
    2048 < Nat.max 2215 1000 ∧
    pyResize 2215 1000 2048 = (2047, 924) ∧
    (pyResize 2215 1000 2048).1 ≠ 2048 :=
  ⟨by decide, by decide, by decide⟩

/-- C8 (amended): the 3000×2000 scenario with `MAX_IMAGE_SIZE = 2048` does
store exactly 2048×1365 (longer side exactly 2048, aspect ratio within one
pixel), and under the exact (real-number) reading of the formula — each
dimension multiplied by `maxSize / max w h` and truncated — the longer side
always equals `maxSize` exactly; it is only the binary64 evaluation that can
lose one pixel. -/
theorem resize_scenario_and_exact_formula :
    pyResize 3000 2000 2048 = (2048, 1365) ∧
    Int.natAbs (1365 * 3000 - 2000 * 2048) < 3000 ∧
    (∀ w h M : Nat, 0 < w → 0 < h → M < Nat.max w h →
      Nat.max (exactResize w h M).1 (exactResize w h M).2 = M) := by
  refine ⟨by decide, by decide, ?_⟩
  intro w h M hw hh hM
  unfold exactResize
  dsimp only
  rw [if_pos hM]
  rcases Nat.le_total h w with hle | hle
  · have hL : Nat.max w h = w := Nat.max_eq_left hle
    rw [hL]
    have h1 : w * M / w = M := Nat.mul_div_cancel_left M hw
    have h2 : h * M / w ≤ M := by
      calc h * M / w ≤ w * M / w :=
            Nat.div_le_div_right (Nat.mul_le_mul_right M hle)
        _ = M := h1
    rw [h1]
    exact Nat.max_eq_left h2
  · have hL : Nat.max w h = h := Nat.max_eq_right hle
    rw [hL]
    have h1 : h * M / h = M := Nat.mul_div_cancel_left M hh
    have h2 : w * M / h ≤ M := by
      calc w * M / h ≤ h * M / h :=
            Nat.div_le_div_right (Nat.mul_le_mul_right M hle)
        _ = M := h1
    rw [h1]
    exact Nat.max_eq_right h2

theorem resize_scenario_and_exact_formula_witness :
    Nat.max (exactResize 3000 2000 2048).1 (exactResize 3000 2000 2048).2 =
      2048 :=
  resize_scenario_and_exact_formula.2.2 3000 2000 2048 (by decide) (by decide)
    (by decide)

/-! ## C10: the result-fetch endpoint -/

/-- C10: `get_result_image` serves whatever file exists at
`jobs/<job_id>/<name>` — `input.png` and `metadata.json` included, not only
generated results.  But for a missing file the handler's intended
`HTTPException(404, "Image not found")` is caught by its own blanket
`except Exception` clause and re-raised as a 500 whose detail is the string
of the 404 — so the missing-file case answers 500, not the not-found error
the claim (and the spec's interface table) promise. -/
theorem result_fetch_evaluation :
    Api.get_result_image fs1 "job1" "input.png" = .ok (.raw [7]) ∧
    Api.get_result_image fs1 "job1" "metadata.json" =
      .ok (.json (metadataJson pW ["result_0.png"])) ∧
    Api.get_result_image fs1 "job1" "result_0.png" =
      .error (.serverError "404: Image not found") :=
  ⟨rfl, rfl, rfl⟩

end ControlNetAPI
